import Mathlib

/-!
Verification of the bowness federated-TLS-authentication proxy.

This file gives a shallow embedding, in Lean, of the parts of the Go
source that the specification talks about:

* the metadata data model and the lenient pin JSON decoding
  (`src/fedtls/metadata.go`),
* the SPKI fingerprint (`src/util/fingerprint.go`, which applies the
  FIPS 180-4 SHA-256 function and RFC 4648 standard base64 to the raw
  SubjectPublicKeyInfo bytes),
* the signed-metadata verifier (`src/fedtls/verify.go`), with the
  external jwx library calls abstracted as an environment,
* the metadata store: client lookup, refresh-delay arithmetic, and the
  background fetch loop (metadata store source file),
* the authentication middleware (`src/server/middleware.go`).

Machine integers are modelled as `Nat`/`Int` with explicit reduction
modulo `2 ^ 32` where the Go code relies on 32-bit wraparound (SHA-256).
Fallible Go functions are modelled with `Except`/`Option`, and a Go
runtime panic is modelled as an explicit result constructor.
-/

set_option linter.unusedVariables false
set_option maxRecDepth 4096

namespace Bowness

/-! ## Data model, from `src/fedtls/metadata.go` -/

/-- A RFC 7469 pin directive (digest of a public key). -/
structure Pin where
  alg : String
  digest : String
  deriving Repr, DecidableEq

/-- Information the server needs about a connecting client. -/
structure Client where
  description : Option String
  pins : List Pin
  deriving Repr, DecidableEq

/-- A certificate issuer for an entity. -/
structure Issuer where
  x509certificate : String
  deriving Repr, DecidableEq

/-- One of the actors registered in the federation. -/
structure Entity where
  issuers : List Issuer
  clients : List Client
  entityID : String
  organization : Option String
  organizationID : Option String
  deriving Repr, DecidableEq

/-- The complete representation of all entities in the federation. -/
structure Metadata where
  cacheTTL : Int
  entities : List Entity
  deriving Repr, DecidableEq

/-- The zero value `Metadata{}` that the Go code starts from. -/
def emptyMetadata : Metadata := { cacheTTL := 0, entities := [] }

/-! ## Pin JSON decoding, from `Pin.UnmarshalJSON` in `src/fedtls/metadata.go`

The Go method first unmarshals the JSON object into a `map[string]string`;
we take that map, as an association list with the first binding of a key
the visible one, as the input of the decoder. -/

/-- Lookup in a string-to-string map represented as an association list. -/
def mapLookup (m : List (String × String)) (k : String) : Option String :=
  match m with
  | [] => none
  | (k2, v) :: rest => if k2 = k then some v else mapLookup rest k

/-- The `alg` extraction step of `Pin.UnmarshalJSON`: `alg` wins over the
legacy `name`, and missing both is the error the Go code returns. -/
def pinAlg (m : List (String × String)) : Except String String :=
  match mapLookup m "alg" with
  | some alg => .ok alg
  | none =>
    match mapLookup m "name" with
    | some name => .ok name
    | none => .error "pin missing alg attribute"

/-- The `digest` extraction step of `Pin.UnmarshalJSON`: `digest` wins over
the legacy `value`, and missing both is the error the Go code returns. -/
def pinDigest (m : List (String × String)) : Except String String :=
  match mapLookup m "digest" with
  | some digest => .ok digest
  | none =>
    match mapLookup m "value" with
    | some value => .ok value
    | none => .error "pin missing digest attribute"

/-- `Pin.UnmarshalJSON` after the initial `map[string]string` unmarshal. -/
def pinUnmarshalJSON (m : List (String × String)) : Except String Pin :=
  match pinAlg m with
  | .error e => .error e
  | .ok alg =>
    match pinDigest m with
    | .error e => .error e
    | .ok digest => .ok { alg := alg, digest := digest }

/-- The canonical JSON encoding of a `Pin`, as Go `json.Marshal` produces it
from the struct tags `alg` and `digest`. -/
def pinMarshalJSON (p : Pin) : List (String × String) :=
  [("alg", p.alg), ("digest", p.digest)]

/-! ## Refresh-delay arithmetic, from the metadata store source

Instants and durations are modelled as integers (Go `time.Time` /
`time.Duration` are totally ordered and the code only adds, subtracts and
compares them); `now` stands for the value of `time.Now()` during the
call. -/

/-- Translation of `durationToRefresh`: a last-fetch instant in the future
is first clamped down to `now`, then the delay until `lastFetch + ttl` is
returned, floored at zero. -/
def durationToRefresh (now lastFetch ttl : Int) : Int :=
  let lf := if now < lastFetch then now else lastFetch
  let timeToRefresh := lf + ttl
  if timeToRefresh < now then 0 else timeToRefresh - now

/-- Translation of `cacheTTL`: the metadata-supplied TTL if non-zero,
otherwise the configured default. -/
def cacheTTL (metadataTTL defaultTTL : Int) : Int :=
  if metadataTTL ≠ 0 then metadataTTL else defaultTTL

/-! ## SHA-256 and base64, the functions behind `util.Fingerprint`

`src/util/fingerprint.go` calls Go's `crypto/sha256` (an implementation of
FIPS 180-4 SHA-256) and `encoding/base64.StdEncoding` (RFC 4648 standard
alphabet with padding). Both are pure byte-level functions and are embedded
here directly; bytes are `Nat` values below 256 and 32-bit words are `Nat`
values reduced modulo `2 ^ 32`. -/

/-- Reduction of a `Nat` to a 32-bit word. -/
def w32 (x : Nat) : Nat := x % 4294967296

/-- Right rotation of a 32-bit word by `n` bits. -/
def rotr32 (n x : Nat) : Nat := w32 ((x >>> n) ||| (x <<< (32 - n)))

/-- SHA-256 big sigma 0. -/
def bsig0 (x : Nat) : Nat := rotr32 2 x ^^^ rotr32 13 x ^^^ rotr32 22 x

/-- SHA-256 big sigma 1. -/
def bsig1 (x : Nat) : Nat := rotr32 6 x ^^^ rotr32 11 x ^^^ rotr32 25 x

/-- SHA-256 small sigma 0. -/
def ssig0 (x : Nat) : Nat := rotr32 7 x ^^^ rotr32 18 x ^^^ (x >>> 3)

/-- SHA-256 small sigma 1. -/
def ssig1 (x : Nat) : Nat := rotr32 17 x ^^^ rotr32 19 x ^^^ (x >>> 10)

/-- SHA-256 choice function. -/
def ch256 (x y z : Nat) : Nat := (x &&& y) ^^^ ((x ^^^ 4294967295) &&& z)

/-- SHA-256 majority function. -/
def maj256 (x y z : Nat) : Nat := (x &&& y) ^^^ (x &&& z) ^^^ (y &&& z)

/-- The 64 SHA-256 round constants. -/
def K256 : List Nat :=
  [1116352408, 1899447441, 3049323471, 3921009573, 961987163, 1508970993,
   2453635748, 2870763221, 3624381080, 310598401, 607225278, 1426881987,
   1925078388, 2162078206, 2614888103, 3248222580, 3835390401, 4022224774,
   264347078, 604807628, 770255983, 1249150122, 1555081692, 1996064986,
   2554220882, 2821834349, 2952996808, 3210313671, 3336571891, 3584528711,
   113926993, 338241895, 666307205, 773529912, 1294757372, 1396182291,
   1695183700, 1986661051, 2177026350, 2456956037, 2730485921, 2820302411,
   3259730800, 3345764771, 3516065817, 3600352804, 4094571909, 275423344,
   430227734, 506948616, 659060556, 883997877, 958139571, 1322822218,
   1537002063, 1747873779, 1955562222, 2024104815, 2227730452, 2361852424,
   2428436474, 2756734187, 3204031479, 3329325298]

/-- The SHA-256 initial hash value. -/
def H256 : List Nat :=
  [1779033703, 3144134277, 1013904242, 2773480762,
   1359893119, 2600822924, 528734635, 1541459225]

/-- Big-endian packing of bytes into 32-bit words. -/
def toWords : List Nat → List Nat
  | b0 :: b1 :: b2 :: b3 :: rest => (((b0 * 256 + b1) * 256 + b2) * 256 + b3) :: toWords rest
  | _ => []

/-- Big-endian unpacking of a 32-bit word into four bytes. -/
def wordBytes (w : Nat) : List Nat :=
  [(w >>> 24) &&& 255, (w >>> 16) &&& 255, (w >>> 8) &&& 255, w &&& 255]

/-- Extension of the 16 message words to the 64-entry message schedule;
`fuel` counts the words still to produce. -/
def scheduleAux : Nat → Array Nat → Array Nat
  | 0, w => w
  | n + 1, w =>
    let t := w.size
    let x := w32 (ssig1 (w.getD (t - 2) 0) + w.getD (t - 7) 0 +
      ssig0 (w.getD (t - 15) 0) + w.getD (t - 16) 0)
    scheduleAux n (w.push x)

/-- The full 64-entry message schedule of one block. -/
def schedule (block : List Nat) : List Nat :=
  (scheduleAux 48 (Array.mk (toWords block))).toList

/-- The eight working variables of the SHA-256 compression function. -/
structure SHAState where
  a : Nat
  b : Nat
  c : Nat
  d : Nat
  e : Nat
  f : Nat
  g : Nat
  h : Nat
  deriving Repr, DecidableEq

/-- One SHA-256 compression round; `kw` is the round constant paired with
the message-schedule word. -/
def shaRound (s : SHAState) (kw : Nat × Nat) : SHAState :=
  let t1 := w32 (s.h + bsig1 s.e + ch256 s.e s.f s.g + kw.1 + kw.2)
  let t2 := w32 (bsig0 s.a + maj256 s.a s.b s.c)
  { a := w32 (t1 + t2), b := s.a, c := s.b, d := s.c,
    e := w32 (s.d + t1), f := s.e, g := s.f, h := s.g }

/-- The SHA-256 compression function on one 64-byte block. -/
def compress (hs : List Nat) (block : List Nat) : List Nat :=
  let s0 : SHAState :=
    { a := hs.getD 0 0, b := hs.getD 1 0, c := hs.getD 2 0, d := hs.getD 3 0,
      e := hs.getD 4 0, f := hs.getD 5 0, g := hs.getD 6 0, h := hs.getD 7 0 }
  let sf := (K256.zip (schedule block)).foldl shaRound s0
  [w32 (s0.a + sf.a), w32 (s0.b + sf.b), w32 (s0.c + sf.c), w32 (s0.d + sf.d),
   w32 (s0.e + sf.e), w32 (s0.f + sf.f), w32 (s0.g + sf.g), w32 (s0.h + sf.h)]

/-- The eight-byte big-endian encoding of the bit length. -/
def lenBytes (n : Nat) : List Nat :=
  (List.range 8).map (fun i => (n >>> (8 * (7 - i))) &&& 255)

/-- SHA-256 padding: a `0x80` byte, zero bytes until the length is 56 mod
64, then the bit length. The zero count `z` is the unique value below 64
with `L + 1 + z` congruent to 56 mod 64; `119 - L % 64` stays non-negative
for every residue, so no `Nat` truncation occurs. -/
def padMessage (msg : List Nat) : List Nat :=
  let L := msg.length
  let z := (119 - L % 64) % 64
  msg ++ [0x80] ++ List.replicate z 0 ++ lenBytes (8 * L)

/-- Splitting into 64-byte blocks; `fuel` bounds the recursion depth. -/
def chunks64 : Nat → List Nat → List (List Nat)
  | 0, _ => []
  | _, [] => []
  | fuel + 1, l => l.take 64 :: chunks64 fuel (l.drop 64)

/-- FIPS 180-4 SHA-256 of a byte list, as computed by Go `crypto/sha256`. -/
def sha256 (msg : List Nat) : List Nat :=
  let padded := padMessage msg
  ((chunks64 padded.length padded).foldl compress H256).map wordBytes |>.flatten

/-- The RFC 4648 standard base64 alphabet. -/
def base64Chars : List Char :=
  "ABCDEFGHIJKLMNOPQRSTUVWXYZabcdefghijklmnopqrstuvwxyz0123456789+/".toList

/-- The base64 character of a 6-bit value. -/
def b64c (n : Nat) : Char := base64Chars.getD n 'A'

/-- Standard base64 encoding with padding, three input bytes at a time. -/
def base64EncodeList : List Nat → List Char
  | [] => []
  | [b0] => [b64c (b0 >>> 2), b64c ((b0 &&& 3) <<< 4), '=', '=']
  | [b0, b1] => [b64c (b0 >>> 2), b64c (((b0 &&& 3) <<< 4) ||| (b1 >>> 4)),
      b64c ((b1 &&& 15) <<< 2), '=']
  | b0 :: b1 :: b2 :: rest =>
    b64c (b0 >>> 2) :: b64c (((b0 &&& 3) <<< 4) ||| (b1 >>> 4)) ::
      b64c (((b1 &&& 15) <<< 2) ||| (b2 >>> 6)) :: b64c (b2 &&& 63) ::
        base64EncodeList rest

/-- Go `base64.StdEncoding.EncodeToString`. -/
def base64Encode (bs : List Nat) : String := String.mk (base64EncodeList bs)

/-! ## The SPKI fingerprint, from `src/util/fingerprint.go` -/

/-- The part of an X.509 certificate the core reads: the raw DER bytes of
the SubjectPublicKeyInfo, exactly as carried in the certificate. -/
structure Certificate where
  rawSubjectPublicKeyInfo : List Nat
  deriving Repr, DecidableEq

/-- Translation of `util.Fingerprint`: base64 of the SHA-256 digest of the
certificate's raw SubjectPublicKeyInfo. -/
def Fingerprint (cert : Certificate) : String :=
  base64Encode (sha256 cert.rawSubjectPublicKeyInfo)

/-! ## Client lookup, from `LookupClient` in the metadata store source -/

/-- Result of `LookupClient`: the entity id with the optional organization
fields, or the error with its message. -/
inductive LookupResult where
  | ok (entityID : String) (organization : Option String) (organizationID : Option String)
  | error (msg : String)
  deriving Repr, DecidableEq

/-- The error message `LookupClient` formats when no pin matches. -/
def lookupErrMsg (fp : String) : String :=
  "failed to find client pin (" ++ fp ++ ") in metadata"

/-- Innermost loop of `LookupClient`: scan one client's pins for the
fingerprint. -/
def scanPins (fp : String) : List Pin → Bool
  | [] => false
  | pin :: rest => if pin.digest = fp then true else scanPins fp rest

/-- Middle loop of `LookupClient`: scan one entity's clients. -/
def scanClients (fp : String) : List Client → Bool
  | [] => false
  | c :: rest => if scanPins fp c.pins then true else scanClients fp rest

/-- Outer loop of `LookupClient`: scan the entities in order and return the
data of the first entity owning a matching pin. -/
def scanEntities (fp : String) : List Entity → Option (String × Option String × Option String)
  | [] => none
  | e :: rest =>
    if scanClients fp e.clients then some (e.entityID, e.organization, e.organizationID)
    else scanEntities fp rest

/-- Translation of `MetadataStore.LookupClient`. The Go code starts with
`verifiedChains[0][0]`, an unchecked double index; `none` models the
runtime panic when the chains or the first chain are empty. -/
def LookupClient (md : Metadata) (verifiedChains : List (List Certificate)) :
    Option LookupResult :=
  match verifiedChains with
  | (leaf :: _) :: _ =>
    let fp := Fingerprint leaf
    some (match scanEntities fp md.entities with
      | some (e, o, oid) => .ok e o oid
      | none => .error (lookupErrMsg fp))
  | _ => none

/-- Specification-side predicate: the entity has a client with a pin whose
digest equals the fingerprint. -/
def entityMatches (fp : String) (e : Entity) : Bool :=
  e.clients.any (fun c => c.pins.any (fun p => p.digest = fp))

/-- A concrete certificate used in witnesses: its raw SubjectPublicKeyInfo
is the empty byte string, whose fingerprint is the well-known base64
SHA-256 of the empty input. -/
def wCert : Certificate := { rawSubjectPublicKeyInfo := [] }

/-- A concrete entity whose single client pin matches `wCert`. -/
def wEntity : Entity :=
  { issuers := [{ x509certificate := "PEM" }],
    clients := [{ description := some "client one",
                  pins := [{ alg := "sha256",
                             digest := "47DEQpj8HBSa+/TImW+5JCeuQeRkm5NMpJWZG3hSuFU=" }] }],
    entityID := "https://example.com",
    organization := some "Example Org",
    organizationID := some "EX123" }

/-- A concrete metadata snapshot used in witnesses. -/
def wMetadata : Metadata := { cacheTTL := 900, entities := [wEntity] }

/-! ## Signed-metadata verification, from `verify` in `src/fedtls/verify.go`

The function calls the external jwx library (`jwk.Parse`, `jws.ParseReader`,
`jws.Verify`) and `json.Unmarshal`; a `VerifyEnv` records what those calls
return for the given `(signed, jwks)` byte pair, and the embedding mirrors
the Go control flow over it. The Go expression `expstr.(float64)` is an
unchecked type assertion: when the header value is not a `float64` the
goroutine panics, which the model makes explicit. -/

/-- A JSON value as jwx hands a protected-header entry to Go: a number
(arriving as `float64`; the value after the code's `int64` conversion is
recorded), a string, or anything else. -/
inductive JSONVal where
  | num (n : Int)
  | str (s : String)
  | other
  deriving Repr, DecidableEq

/-- Lookup of a protected-header key. -/
def headerLookup (hs : List (String × JSONVal)) (k : String) : Option JSONVal :=
  match hs with
  | [] => none
  | (k2, v) :: rest => if k2 = k then some v else headerLookup rest k

/-- What the external calls inside `verify` return for one `(signed, jwks)`
input, plus the wall clock. `jwsHeaders` is the protected-header set of the
first signature of the parsed message, present exactly when `jws.ParseReader`
succeeds; `verifiedPayload` is present exactly when `jws.Verify` accepts the
signature against the key set; `decodedPayload` is what `json.Unmarshal`
yields on the verified payload. Times are integer seconds since the epoch. -/
structure VerifyEnv where
  jwkParseOk : Bool
  jwsHeaders : Option (List (String × JSONVal))
  verifiedPayload : Option (List Nat)
  decodedPayload : Option Metadata
  now : Int
  deriving Repr, DecidableEq

/-- Outcome of `verify`: a metadata value, a returned error, or a Go
runtime panic. -/
inductive VerifyResult where
  | ok (md : Metadata)
  | error
  | panic
  deriving Repr, DecidableEq

/-- The final `json.Unmarshal` step of `verify`. -/
def decodePayload (env : VerifyEnv) : VerifyResult :=
  match env.decodedPayload with
  | some md => .ok md
  | none => .error

/-- Translation of `verify`: parse the JWK set, parse the JWS, verify the
signature, check the optional `exp` protected header of the first
signature against the clock, then JSON-decode the payload. A non-number
`exp` value reaches the `float64` type assertion and panics. -/
def verify (env : VerifyEnv) : VerifyResult :=
  if !env.jwkParseOk then .error
  else
    match env.jwsHeaders with
    | none => .error
    | some hdrs =>
      match env.verifiedPayload with
      | none => .error
      | some _ =>
        match headerLookup hdrs "exp" with
        | some (.num n) => if env.now > n then .error else decodePayload env
        | some _ => .panic
        | none => decodePayload env

/-- Specification-side freshness condition: either no `exp` protected
header, or a numeric one that the current time is not strictly after. -/
def expFresh (hdrs : List (String × JSONVal)) (now : Int) : Bool :=
  match headerLookup hdrs "exp" with
  | none => true
  | some (.num n) => decide (now ≤ n)
  | some _ => false

/-- Specification-side condition for the panic path: an `exp` protected
header is present and its value is not a number. -/
def expNonNumber (hdrs : List (String × JSONVal)) : Bool :=
  match headerLookup hdrs "exp" with
  | some (.num _) => false
  | some _ => true
  | none => false

/-! ## The background fetch loop, from `metadataFetcher` and
`NewMetadataStore` in the metadata store source

The store's goroutine is modelled as a transition system. A state holds
the published snapshot pointer, the cache file contents (with its mode)
and the registered listener count; one event is one arm of the `select`
statement, with the warm-start verification of the cache file included in
the event alphabet (in the real run it happens once, before the loop).
External outcomes — the fetch result, what the jwx library returns for a
body, whether the cache write succeeds — travel inside the events. -/

/-- The three store options, with their defaults set by `NewMetadataStore`. -/
structure FetcherConfig where
  defaultCacheTTL : Int
  networkRetry : Int
  badContentRetry : Int
  deriving Repr, DecidableEq

/-- The mutable state owned by the store: the published snapshot pointer
(`parsed`, a nil pointer modelled as `none`), the cache file (content and
unix mode, `none` when absent), and the listener count. -/
structure FetcherState where
  parsed : Option Metadata
  cacheFile : Option (List Nat × Nat)
  listeners : Nat
  deriving Repr, DecidableEq

/-- One event of the fetcher: the warm-start verification of the cache
file read at `mtime`, a stop request, a listener registration, a fetch
whose transport or read failed, a fetch whose body arrived (with the
verification environment for that body and whether the subsequent file
write would succeed), or the refresh timer firing. -/
inductive LoopEvent where
  | warmStart (mtime : Int) (env : VerifyEnv)
  | quitReq
  | newListener
  | fetchFailed
  | fetchSucceeded (body : List Nat) (env : VerifyEnv) (writeOk : Bool)
  | timerFired
  deriving Repr, DecidableEq

/-- Observable effects of one loop iteration: listener notifications sent,
the value the retry timer is reset to (if any), whether a new fetch was
started, and whether the goroutine crashed (a panic escaping `verify`). -/
structure StepEffects where
  notified : Nat
  reschedule : Option Int
  fetchStarted : Bool
  crashed : Bool
  deriving Repr, DecidableEq

/-- Translation of one iteration of the fetcher: the warm-start block and
the four `select` arms. `now` is the wall clock during the iteration. -/
def loopStep (cfg : FetcherConfig) (now : Int) (st : FetcherState) :
    LoopEvent → FetcherState × StepEffects
  | .warmStart mtime env =>
    match verify env with
    | .ok md =>
      ({ st with parsed := some md },
       { notified := st.listeners,
         reschedule := some (durationToRefresh now mtime
           (cacheTTL md.cacheTTL cfg.defaultCacheTTL)),
         fetchStarted := false, crashed := false })
    | .error => (st, { notified := 0, reschedule := none, fetchStarted := false, crashed := false })
    | .panic => (st, { notified := 0, reschedule := none, fetchStarted := false, crashed := true })
  | .quitReq => (st, { notified := 0, reschedule := none, fetchStarted := false, crashed := false })
  | .newListener =>
    ({ st with listeners := st.listeners + 1 },
     { notified := 0, reschedule := none, fetchStarted := false, crashed := false })
  | .fetchFailed =>
    (st, { notified := 0, reschedule := some cfg.networkRetry,
           fetchStarted := false, crashed := false })
  | .fetchSucceeded body env writeOk =>
    match verify env with
    | .ok md =>
      ({ st with parsed := some md,
                 cacheFile := if writeOk then some (body, 0o600) else st.cacheFile },
       { notified := st.listeners,
         reschedule := some (durationToRefresh now now
           (cacheTTL md.cacheTTL cfg.defaultCacheTTL)),
         fetchStarted := false, crashed := false })
    | .error =>
      (st, { notified := 0, reschedule := some cfg.badContentRetry,
             fetchStarted := false, crashed := false })
    | .panic => (st, { notified := 0, reschedule := none, fetchStarted := false, crashed := true })
  | .timerFired =>
    (st, { notified := 0, reschedule := none, fetchStarted := true, crashed := false })

/-- The published pointer at construction, from `NewMetadataStore`:
`parsed: &Metadata{}`, the empty snapshot. The cache file may or may not
exist on disk at start; `none` stands for the absent-file cold start. -/
def initialState : FetcherState :=
  { parsed := some emptyMetadata, cacheFile := none, listeners := 0 }

/-- The verification environment an event carries, when it carries one. -/
def eventEnvOf : LoopEvent → Option VerifyEnv
  | .warmStart _ env => some env
  | .fetchSucceeded _ env _ => some env
  | _ => none

/-- All verification environments carried by a trace, in order. -/
def eventEnvs (tr : List (Int × LoopEvent)) : List VerifyEnv :=
  tr.filterMap (fun p => eventEnvOf p.2)

/-- Executing a trace of timed events from a state. -/
def runEvents (cfg : FetcherConfig) (st : FetcherState) :
    List (Int × LoopEvent) → FetcherState
  | [] => st
  | (now, ev) :: rest => runEvents cfg (loopStep cfg now st ev).1 rest

/-- Concrete store options for witnesses. -/
def cfgW : FetcherConfig := { defaultCacheTTL := 3600, networkRetry := 60, badContentRetry := 3600 }

/-- Concrete fetcher state for witnesses. -/
def stW : FetcherState := { parsed := some emptyMetadata, cacheFile := none, listeners := 2 }

/-- Concrete verification environment with a successful outcome, used in
witnesses; its decoded payload is `wMetadata` with `cache_ttl = 900`. -/
def envOkW : VerifyEnv :=
  { jwkParseOk := true,
    jwsHeaders := some [("exp", .num 1800000000)],
    verifiedPayload := some [123, 125],
    decodedPayload := some wMetadata,
    now := 1700000000 }

/-! ## Authentication middleware, from `src/server/middleware.go`

Go's `http.Header` is a map from (canonical) header names to value lists;
it is modelled as an association list whose operations mirror
`Header.Set` (replace all values of the name with the one value) and
`Header.Del` (remove the name). The entity-id normalisation function
(`normalizeEntityID`, built on the external purell library) is passed in
as a parameter. -/

/-- Request headers: names with their value lists. -/
abbrev Header := List (String × List String)

/-- Removal of every binding of a name, the map-entry deletion of Go. -/
def eraseKey : Header → String → Header
  | [], _ => []
  | kv :: rest, k => if kv.1 = k then eraseKey rest k else kv :: eraseKey rest k

/-- Go `http.Header.Set`: replace the name's values with the one value. -/
def headerSet (h : Header) (k v : String) : Header :=
  (k, [v]) :: eraseKey h k

/-- Go `http.Header.Del`: remove the name. -/
def headerDel (h : Header) (k : String) : Header :=
  eraseKey h k

/-- Go `http.Header.Values`: the name's value list, empty when absent. -/
def headerGet (h : Header) (k : String) : List String :=
  match h.find? (fun kv => decide (kv.1 = k)) with
  | some kv => kv.2
  | none => []

/-- Translation of `setOrClear`: set the header when the value is present,
delete it when the value is nil. -/
def setOrClear (h : Header) (headerName : String) (value : Option String) : Header :=
  match value with
  | some v => headerSet h headerName v
  | none => headerDel h headerName

/-- The `X-FedTLSAuth-Entity-ID` header name. -/
def entityIDHeader : String := "X-FedTLSAuth-Entity-ID"

/-- The `X-FedTLSAuth-Normalized-Entity-ID` header name. -/
def normalizedEntityIDHeader : String := "X-FedTLSAuth-Normalized-Entity-ID"

/-- The `X-FedTLSAuth-Organization` header name. -/
def organizationHeader : String := "X-FedTLSAuth-Organization"

/-- The `X-FedTLSAuth-Organization-ID` header name. -/
def organizationIDHeader : String := "X-FedTLSAuth-Organization-ID"

/-- Per-connection authentication status, from the server connection
source. Note that the struct records no error message — only the boolean
decision and the identity fields. -/
structure AuthStatus where
  granted : Bool
  entityID : String
  organization : Option String
  organizationID : Option String
  deriving Repr, DecidableEq

/-- The header block the middleware runs on the cloned request before
forwarding: entity id, purell-normalised entity id, then the optional
organization headers via `setOrClear`. -/
def stampHeaders (normalize : String → String) (auth : AuthStatus) (h : Header) : Header :=
  let h1 := headerSet h entityIDHeader auth.entityID
  let h2 := headerSet h1 normalizedEntityIDHeader (normalize auth.entityID)
  let h3 := setOrClear h2 organizationHeader auth.organization
  setOrClear h3 organizationIDHeader auth.organizationID

/-- What the middleware does with one request: respond itself with a
status and body (the inner handler is not invoked), or forward the
stamped request, with the identity values attached to the request
context, to the inner handler. The body of `denied` is the string passed
to `http.Error` (Go appends a trailing newline on the wire). -/
inductive MWOutcome where
  | denied (status : Nat) (body : String)
  | forwarded (headers : Header) (ctxEntityID : String)
      (ctxOrganization ctxOrganizationID : Option String)
  deriving Repr, DecidableEq

/-- The authentication slot after the request together with the outcome. -/
structure MWResult where
  auth : AuthStatus
  outcome : MWOutcome
  deriving Repr, DecidableEq

/-- Translation of `AuthMiddleware` for one request. `auth0` is the
connection's memoised slot (`nil` before the first request); `none` as the
overall result models the `LookupClient` index panic on empty chains. -/
def AuthMiddleware (md : Metadata) (chains : List (List Certificate))
    (normalize : String → String) (auth0 : Option AuthStatus)
    (reqHeaders : Header) : Option MWResult :=
  let checked : Option (AuthStatus × String) :=
    match auth0 with
    | some a => some (a, "Unauthorized")
    | none =>
      match LookupClient md chains with
      | none => none
      | some (.ok e o oid) =>
        some ({ granted := true, entityID := e, organization := o, organizationID := oid },
          "Unauthorized")
      | some (.error msg) =>
        some ({ granted := false, entityID := "", organization := none,
                organizationID := none }, msg)
  match checked with
  | none => none
  | some (auth, errorString) =>
    if auth.granted then
      some { auth := auth,
             outcome := .forwarded (stampHeaders normalize auth reqHeaders)
               auth.entityID auth.organization auth.organizationID }
    else
      some { auth := auth, outcome := .denied 403 errorString }

/-- The headers the middleware forwards for one concrete authenticated
first request carrying no client headers, with the identity function in
place of the purell normalisation. -/
def forwardedHeadersW : Header :=
  match AuthMiddleware wMetadata [[wCert]] (fun s => s) none [] with
  | some r =>
    match r.outcome with
    | .forwarded h _ _ _ => h
    | _ => []
  | none => []

/-- A concrete granted authentication slot used in witnesses; its
organization id is absent. -/
def aW : AuthStatus :=
  { granted := true, entityID := "https://example.com",
    organization := some "Example Org", organizationID := none }

/-! ## Theorems -/

/-- Sanity anchor for the SHA-256 embedding: the FIPS 180-4 test vector for
the message `abc`. -/
theorem sha256_abc_vector :
    sha256 [97, 98, 99] =
      [0xba, 0x78, 0x16, 0xbf, 0x8f, 0x01, 0xcf, 0xea,
       0x41, 0x41, 0x40, 0xde, 0x5d, 0xae, 0x22, 0x23,
       0xb0, 0x03, 0x61, 0xa3, 0x96, 0x17, 0x7a, 0x9c,
       0xb4, 0x10, 0xff, 0x61, 0xf2, 0x00, 0x15, 0xad] := by
  decide

/-- Sanity anchor at a message length congruent to 56 mod 64, where the
padding inserts 63 zero bytes and the padded message spans two blocks:
SHA-256 of 56 `a` bytes. -/
theorem sha256_56a_vector :
    sha256 (List.replicate 56 97) =
      [0xb3, 0x54, 0x39, 0xa4, 0xac, 0x6f, 0x09, 0x48,
       0xb6, 0xd6, 0xf9, 0xe3, 0xc6, 0xaf, 0x0f, 0x5f,
       0x59, 0x0c, 0xe2, 0x0f, 0x1b, 0xde, 0x70, 0x90,
       0xef, 0x79, 0x70, 0x68, 0x6e, 0xc6, 0x73, 0x8a] := by
  decide

/-- Sanity anchor for the padding length at every residue class: the
padded message is always a whole number of 64-byte blocks. -/
theorem padMessage_length_multiple (msg : List Nat) :
    (padMessage msg).length % 64 = 0 := by
  unfold padMessage lenBytes
  simp only [List.length_append, List.length_replicate, List.length_cons,
    List.length_map, List.length_range, List.length_nil]
  omega

/-- Sanity anchor for the fingerprint embedding: the well-known base64
SHA-256 of the empty byte string. -/
theorem fingerprint_empty_vector :
    Fingerprint { rawSubjectPublicKeyInfo := [] } =
      "47DEQpj8HBSa+/TImW+5JCeuQeRkm5NMpJWZG3hSuFU=" := by
  decide

theorem scanPins_eq_any (fp : String) (ps : List Pin) :
    scanPins fp ps = ps.any (fun p => p.digest = fp) := by
  induction ps with
  | nil => rfl
  | cons p rest ih =>
    by_cases h : p.digest = fp <;> simp [scanPins, h, ih]

theorem scanClients_eq_any (fp : String) (cs : List Client) :
    scanClients fp cs = cs.any (fun c => c.pins.any (fun p => p.digest = fp)) := by
  induction cs with
  | nil => rfl
  | cons c rest ih =>
    rw [List.any_cons, scanClients, scanPins_eq_any, ih]
    by_cases h : c.pins.any (fun p => p.digest = fp) <;> simp [h]

theorem scanClients_eq_entityMatches (fp : String) (e : Entity) :
    scanClients fp e.clients = entityMatches fp e := by
  rw [scanClients_eq_any]; rfl

theorem scanEntities_eq_find (fp : String) (es : List Entity) :
    scanEntities fp es =
      (es.find? (entityMatches fp)).map (fun e => (e.entityID, e.organization, e.organizationID)) := by
  induction es with
  | nil => rfl
  | cons e rest ih =>
    rw [List.find?_cons, scanEntities, scanClients_eq_entityMatches]
    cases h : entityMatches fp e with
    | true => simp [h]
    | false => simp [h, ih]

/-! ## Claim C1 -/

/-- C1: with verified chains whose first chain is non-empty, `LookupClient`
computes the standard-alphabet padded base64 encoding of the SHA-256 digest
of the leaf certificate's raw SubjectPublicKeyInfo bytes, scans the
snapshot's entities in order and returns, at the first entity owning a
client pin whose digest equals that fingerprint, that entity's entity id,
organization and organization id; if no pin matches it returns an error
whose message contains the unmatched fingerprint as an infix. -/
theorem lookup_client_spec (md : Metadata) (chains : List (List Certificate))
    (leaf : Certificate) (chainRest : List Certificate)
    (chainsRest : List (List Certificate))
    (hch : chains = (leaf :: chainRest) :: chainsRest) :
    LookupClient md chains =
      some (match md.entities.find?
          (entityMatches (base64Encode (sha256 leaf.rawSubjectPublicKeyInfo))) with
        | some e => LookupResult.ok e.entityID e.organization e.organizationID
        | none => LookupResult.error
            ("failed to find client pin (" ++
              (base64Encode (sha256 leaf.rawSubjectPublicKeyInfo) ++ ") in metadata"))) := by
  subst hch
  simp only [LookupClient, Fingerprint]
  rw [scanEntities_eq_find]
  cases h : md.entities.find?
      (entityMatches (base64Encode (sha256 leaf.rawSubjectPublicKeyInfo))) with
  | some e => simp [h]
  | none => simp [h, lookupErrMsg, String.append_assoc]

/-- Witness for C1: the lookup at a concrete chain and snapshot. -/
theorem lookup_client_spec_witness :
    LookupClient wMetadata [[wCert]] =
      some (.ok "https://example.com" (some "Example Org") (some "EX123")) := by
  rw [lookup_client_spec wMetadata [[wCert]] wCert [] [] rfl]
  decide

/-! ## Claims C2 and C9 -/

/-- C2 (amended): `verify` returns the JSON-decoded metadata payload
exactly when the JWK set parses, the JWS parses, the signature verifies
against the key set, the optional numeric `exp` header is not strictly in
the past, and the payload decodes; it panics exactly when everything up to
the signature check succeeds but the `exp` header holds a non-number; and
it returns an error in every remaining case. -/
theorem verify_ok_iff (env : VerifyEnv) :
    (∀ md : Metadata, verify env = .ok md ↔
      (env.jwkParseOk = true ∧
       (∃ hdrs, env.jwsHeaders = some hdrs ∧ expFresh hdrs env.now = true) ∧
       env.verifiedPayload.isSome = true ∧
       env.decodedPayload = some md)) ∧
    (verify env = .panic ↔
      (env.jwkParseOk = true ∧
       (∃ hdrs, env.jwsHeaders = some hdrs ∧ expNonNumber hdrs = true) ∧
       env.verifiedPayload.isSome = true)) := by
  obtain ⟨jwkOk, jwsHeaders, verifiedPayload, decodedPayload, now⟩ := env
  cases jwkOk with
  | false => simp [verify]
  | true =>
    cases jwsHeaders with
    | none => simp [verify]
    | some hdrs =>
      cases verifiedPayload with
      | none => simp [verify]
      | some payload =>
        cases hexp : headerLookup hdrs "exp" with
        | none =>
          cases decodedPayload with
          | none => simp [verify, decodePayload, expFresh, expNonNumber, hexp]
          | some md2 => simp [verify, decodePayload, expFresh, expNonNumber, hexp]
        | some v =>
          cases v with
          | num n =>
            by_cases hn : now > n
            · simp [verify, decodePayload, expFresh, expNonNumber, hexp, hn, not_le.mpr hn]
            · cases decodedPayload with
              | none =>
                simp [verify, decodePayload, expFresh, expNonNumber, hexp, hn, not_lt.mp hn]
              | some md2 =>
                simp [verify, decodePayload, expFresh, expNonNumber, hexp, hn, not_lt.mp hn]
          | str s => simp [verify, expFresh, expNonNumber, hexp]
          | other => simp [verify, expFresh, expNonNumber, hexp]

/-- Counterexample to C2 as stated: an input on which the JWK set parses,
the JWS parses and the signature verifies, but the first signature carries
a non-number `exp` protected header; `verify` neither returns the payload
nor returns an error — it panics. -/
theorem verify_not_error_on_string_exp :
    verify { jwkParseOk := true,
             jwsHeaders := some [("exp", .str "soon")],
             verifiedPayload := some [],
             decodedPayload := some emptyMetadata,
             now := 0 } = .panic ∧
    verify { jwkParseOk := true,
             jwsHeaders := some [("exp", .str "soon")],
             verifiedPayload := some [],
             decodedPayload := some emptyMetadata,
             now := 0 } ≠ .error := by
  decide

/-- Witness for C2 (amended): the success biconditional applied at a
concrete environment whose conditions all hold. -/
theorem verify_ok_iff_witness : verify envOkW = .ok wMetadata := by
  exact ((verify_ok_iff envOkW).1 wMetadata).mpr
    ⟨rfl, ⟨[("exp", .num 1800000000)], rfl, by decide⟩, rfl, rfl⟩

/-- C9: evaluation of `verify` at a failing input — a message whose
signature verifies but whose first signature's `exp` protected header is
the JSON string `"never"`. The unchecked `float64` type assertion panics
instead of producing a value or an error. -/
theorem verify_exp_assertion_panics :
    verify { jwkParseOk := true,
             jwsHeaders := some [("alg", .str "ES256"), ("exp", .str "never")],
             verifiedPayload := some [123],
             decodedPayload := none,
             now := 1700000000 } = .panic := by
  decide

theorem eventEnvs_mem (n : Int) (ev : LoopEvent) (rest : List (Int × LoopEvent))
    (env : VerifyEnv) :
    env ∈ eventEnvs ((n, ev) :: rest) ↔
      eventEnvOf ev = some env ∨ env ∈ eventEnvs rest := by
  unfold eventEnvs
  cases h : eventEnvOf ev with
  | none => simp [List.filterMap_cons, h]
  | some e0 => simp [List.filterMap_cons, h, List.mem_cons, eq_comm]

theorem loopStep_parsed (cfg : FetcherConfig) (now : Int) (st : FetcherState)
    (ev : LoopEvent) :
    (loopStep cfg now st ev).1.parsed = st.parsed ∨
    ∃ md env, eventEnvOf ev = some env ∧ verify env = .ok md ∧
      (loopStep cfg now st ev).1.parsed = some md := by
  cases ev with
  | warmStart mtime env =>
    cases hv : verify env with
    | ok md => exact Or.inr ⟨md, env, rfl, hv, by simp [loopStep, hv]⟩
    | error => exact Or.inl (by simp [loopStep, hv])
    | panic => exact Or.inl (by simp [loopStep, hv])
  | quitReq => exact Or.inl rfl
  | newListener => exact Or.inl rfl
  | fetchFailed => exact Or.inl rfl
  | fetchSucceeded body env writeOk =>
    cases hv : verify env with
    | ok md => exact Or.inr ⟨md, env, rfl, hv, by simp [loopStep, hv]⟩
    | error => exact Or.inl (by simp [loopStep, hv])
    | panic => exact Or.inl (by simp [loopStep, hv])
  | timerFired => exact Or.inl rfl

theorem runEvents_parsed (cfg : FetcherConfig) (events : List (Int × LoopEvent)) :
    ∀ st : FetcherState,
      (runEvents cfg st events).parsed = st.parsed ∨
      ∃ md env, env ∈ eventEnvs events ∧ verify env = .ok md ∧
        (runEvents cfg st events).parsed = some md := by
  induction events with
  | nil => intro st; exact Or.inl rfl
  | cons p rest ih =>
    intro st
    obtain ⟨now, ev⟩ := p
    have hrun : runEvents cfg st ((now, ev) :: rest) =
        runEvents cfg (loopStep cfg now st ev).1 rest := rfl
    rcases ih (loopStep cfg now st ev).1 with htail | ⟨md, env, hmem, hok, hp⟩
    · rcases loopStep_parsed cfg now st ev with hstep | ⟨md, env, hev, hok, hp⟩
      · exact Or.inl (by rw [hrun, htail, hstep])
      · exact Or.inr ⟨md, env, (eventEnvs_mem now ev rest env).mpr (Or.inl hev), hok,
          by rw [hrun, htail, hp]⟩
    · exact Or.inr ⟨md, env, (eventEnvs_mem now ev rest env).mpr (Or.inr hmem), hok,
        by rw [hrun]; exact hp⟩

/-! ## Claims C3 and C6 -/

/-- C3: starting from the constructed store — whose published pointer is
the non-nil empty snapshot — every reachable published pointer is non-nil,
and it is either still the empty snapshot or the successful result of a
`verify` call carried by the trace (the warm-start cache verification or a
fetched body). -/
theorem published_snapshot_always_verified (cfg : FetcherConfig)
    (events : List (Int × LoopEvent)) :
    ∃ md, (runEvents cfg initialState events).parsed = some md ∧
      (md = emptyMetadata ∨
        ∃ env, env ∈ eventEnvs events ∧ verify env = .ok md) := by
  rcases runEvents_parsed cfg events initialState with h | ⟨md, env, hmem, hok, hp⟩
  · exact ⟨emptyMetadata, h, Or.inl rfl⟩
  · exact ⟨md, hp, Or.inr ⟨env, hmem, hok⟩⟩

/-- C6: in any iteration of the fetch loop, a transport or read error
reschedules after `network_retry` and leaves the snapshot and the cache
file unchanged; a body that verifies publishes the new snapshot, notifies
every listener, writes the body verbatim with mode `0600` when the write
succeeds (and on a write failure leaves the file as it was without
crashing), and reschedules by the new snapshot's effective TTL from now;
a body that fails verification reschedules after `bad_content_retry`
without touching the cache file or the snapshot. -/
theorem fetch_loop_iteration (cfg : FetcherConfig) (now : Int)
    (st : FetcherState) (body : List Nat) (env : VerifyEnv) (writeOk : Bool)
    (md : Metadata) :
    ((loopStep cfg now st .fetchFailed).1 = st ∧
      (loopStep cfg now st .fetchFailed).2.reschedule = some cfg.networkRetry ∧
      (loopStep cfg now st .fetchFailed).2.notified = 0) ∧
    (verify env = .ok md →
      (loopStep cfg now st (.fetchSucceeded body env writeOk)).1.parsed = some md ∧
      (loopStep cfg now st (.fetchSucceeded body env writeOk)).2.notified = st.listeners ∧
      (writeOk = true →
        (loopStep cfg now st (.fetchSucceeded body env writeOk)).1.cacheFile =
          some (body, 0o600)) ∧
      (writeOk = false →
        (loopStep cfg now st (.fetchSucceeded body env writeOk)).1.cacheFile =
          st.cacheFile) ∧
      (loopStep cfg now st (.fetchSucceeded body env writeOk)).2.crashed = false ∧
      (loopStep cfg now st (.fetchSucceeded body env writeOk)).2.reschedule =
        some (max 0 (cacheTTL md.cacheTTL cfg.defaultCacheTTL))) ∧
    (verify env = .error →
      (loopStep cfg now st (.fetchSucceeded body env writeOk)).1 = st ∧
      (loopStep cfg now st (.fetchSucceeded body env writeOk)).2.reschedule =
        some cfg.badContentRetry ∧
      (loopStep cfg now st (.fetchSucceeded body env writeOk)).2.notified = 0) := by
  refine ⟨⟨rfl, rfl, rfl⟩, ?_, ?_⟩
  · intro hok
    have hd : durationToRefresh now now (cacheTTL md.cacheTTL cfg.defaultCacheTTL) =
        max 0 (cacheTTL md.cacheTTL cfg.defaultCacheTTL) := by
      unfold durationToRefresh
      simp only [lt_self_iff_false, if_false]
      by_cases h : now + cacheTTL md.cacheTTL cfg.defaultCacheTTL < now <;>
        simp [h] <;> omega
    cases writeOk <;>
      refine ⟨by simp [loopStep, hok], by simp [loopStep, hok], ?_, ?_, by simp [loopStep, hok],
        by simp [loopStep, hok, hd]⟩ <;>
      simp [loopStep, hok]
  · intro herr
    exact ⟨by simp [loopStep, herr], by simp [loopStep, herr], by simp [loopStep, herr]⟩

/-- Witness for C6: a concrete successful iteration publishes the body's
metadata, notifies both listeners, writes the cache file with mode `0600`
and reschedules by the metadata's 900-second TTL. -/
theorem fetch_loop_iteration_witness :
    (loopStep cfgW 1700000000 stW (.fetchSucceeded [7, 8] envOkW true)).1.parsed =
      some wMetadata ∧
    (loopStep cfgW 1700000000 stW (.fetchSucceeded [7, 8] envOkW true)).2.notified = 2 ∧
    (loopStep cfgW 1700000000 stW (.fetchSucceeded [7, 8] envOkW true)).1.cacheFile =
      some ([7, 8], 0o600) ∧
    (loopStep cfgW 1700000000 stW (.fetchSucceeded [7, 8] envOkW true)).2.reschedule =
      some 900 := by
  obtain ⟨h1, h2, h3⟩ :=
    fetch_loop_iteration cfgW 1700000000 stW [7, 8] envOkW true wMetadata
  obtain ⟨hp, hn, hw, hwf, hc, hr⟩ := h2 (by decide)
  exact ⟨hp, by rw [hn]; rfl, hw rfl, by rw [hr]; rfl⟩

theorem find_eraseKey_self (h : Header) (k : String) :
    List.find? (fun kv => decide (kv.1 = k)) (eraseKey h k) = none := by
  induction h with
  | nil => rfl
  | cons kv rest ih =>
    by_cases h1 : kv.1 = k <;> simp [eraseKey, List.find?_cons, h1, ih]

theorem find_eraseKey_other (h : Header) (k k2 : String) (hne : k2 ≠ k) :
    List.find? (fun kv => decide (kv.1 = k2)) (eraseKey h k) =
      List.find? (fun kv => decide (kv.1 = k2)) h := by
  have hkk2 : ¬(k = k2) := fun e => hne e.symm
  induction h with
  | nil => rfl
  | cons kv rest ih =>
    by_cases h1 : kv.1 = k
    · have h2 : ¬(kv.1 = k2) := by rw [h1]; exact hkk2
      simp [eraseKey, List.find?_cons, h1, h2, hne, hkk2, ih]
    · by_cases h2 : kv.1 = k2 <;> simp [eraseKey, List.find?_cons, h1, h2, hne, hkk2, ih]

theorem headerGet_set_self (h : Header) (k v : String) :
    headerGet (headerSet h k v) k = [v] := by
  simp [headerGet, headerSet, List.find?_cons]

theorem headerGet_set_other (h : Header) (k k2 v : String) (hne : k2 ≠ k) :
    headerGet (headerSet h k v) k2 = headerGet h k2 := by
  have h2 : ¬(k = k2) := fun e => hne e.symm
  simp [headerGet, headerSet, List.find?_cons, h2, find_eraseKey_other h k k2 hne]

theorem headerGet_del_self (h : Header) (k : String) :
    headerGet (headerDel h k) k = [] := by
  simp [headerGet, headerDel, find_eraseKey_self h k]

theorem headerGet_del_other (h : Header) (k k2 : String) (hne : k2 ≠ k) :
    headerGet (headerDel h k) k2 = headerGet h k2 := by
  simp [headerGet, headerDel, find_eraseKey_other h k k2 hne]

theorem headerGet_setOrClear_self (h : Header) (k : String) (v : Option String) :
    headerGet (setOrClear h k v) k = (match v with | some x => [x] | none => []) := by
  cases v <;> simp [setOrClear, headerGet_set_self, headerGet_del_self]

theorem headerGet_setOrClear_other (h : Header) (k k2 : String) (v : Option String)
    (hne : k2 ≠ k) :
    headerGet (setOrClear h k v) k2 = headerGet h k2 := by
  cases v <;> simp [setOrClear, headerGet_set_other _ _ _ _ hne, headerGet_del_other _ _ _ hne]

theorem stampHeaders_entityID (normalize : String → String) (a : AuthStatus) (h : Header) :
    headerGet (stampHeaders normalize a h) entityIDHeader = [a.entityID] := by
  unfold stampHeaders
  rw [headerGet_setOrClear_other _ _ _ _ (by decide),
    headerGet_setOrClear_other _ _ _ _ (by decide),
    headerGet_set_other _ _ _ _ (by decide), headerGet_set_self]

theorem stampHeaders_normalized (normalize : String → String) (a : AuthStatus) (h : Header) :
    headerGet (stampHeaders normalize a h) normalizedEntityIDHeader =
      [normalize a.entityID] := by
  unfold stampHeaders
  rw [headerGet_setOrClear_other _ _ _ _ (by decide),
    headerGet_setOrClear_other _ _ _ _ (by decide), headerGet_set_self]

theorem stampHeaders_organization (normalize : String → String) (a : AuthStatus) (h : Header) :
    headerGet (stampHeaders normalize a h) organizationHeader =
      (match a.organization with | some o => [o] | none => []) := by
  unfold stampHeaders
  rw [headerGet_setOrClear_other _ _ _ _ (by decide), headerGet_setOrClear_self]

theorem stampHeaders_organizationID (normalize : String → String) (a : AuthStatus) (h : Header) :
    headerGet (stampHeaders normalize a h) organizationIDHeader =
      (match a.organizationID with | some o => [o] | none => []) := by
  unfold stampHeaders
  rw [headerGet_setOrClear_self]

theorem stampHeaders_other (normalize : String → String) (a : AuthStatus) (h : Header)
    (k : String) (h1 : k ≠ entityIDHeader) (h2 : k ≠ normalizedEntityIDHeader)
    (h3 : k ≠ organizationHeader) (h4 : k ≠ organizationIDHeader) :
    headerGet (stampHeaders normalize a h) k = headerGet h k := by
  unfold stampHeaders
  rw [headerGet_setOrClear_other _ _ _ _ h4, headerGet_setOrClear_other _ _ _ _ h3,
    headerGet_set_other _ _ _ _ h2, headerGet_set_other _ _ _ _ h1]

/-! ## Claims C4, C5 and C10 -/

/-- C4 (amended): on a connection whose client lookup failed, the first
request is answered 403 with the lookup error message, which names the
unmatched SPKI fingerprint; the slot then records only the denial, not the
message, so the second and every later request on that connection is
answered 403 with the fixed body `Unauthorized`; the inner handler is
invoked in neither case. -/
theorem denied_connection_responses (md : Metadata)
    (chains : List (List Certificate)) (normalize : String → String)
    (reqHeaders : Header) (leaf : Certificate) (chainRest : List Certificate)
    (chainsRest : List (List Certificate))
    (hch : chains = (leaf :: chainRest) :: chainsRest)
    (hnomatch : md.entities.find? (entityMatches (Fingerprint leaf)) = none) :
    AuthMiddleware md chains normalize none reqHeaders =
      some { auth := { granted := false, entityID := "", organization := none,
                       organizationID := none },
             outcome := .denied 403 (lookupErrMsg (Fingerprint leaf)) } ∧
    (∀ a : AuthStatus, a.granted = false →
      AuthMiddleware md chains normalize (some a) reqHeaders =
        some { auth := a, outcome := .denied 403 "Unauthorized" }) := by
  constructor
  · have hl : LookupClient md chains = some (.error (lookupErrMsg (Fingerprint leaf))) := by
      subst hch
      simp only [LookupClient, Fingerprint]
      rw [scanEntities_eq_find]
      rw [show md.entities.find?
          (entityMatches (base64Encode (sha256 leaf.rawSubjectPublicKeyInfo))) = none
        from hnomatch]
      rfl
    simp [AuthMiddleware, hl]
  · intro a hgr
    simp [AuthMiddleware, hgr]

/-- Counterexample to C4 as stated: against the empty snapshot, the first
request on the connection is refused with the message naming the
fingerprint, but the second request — fed the slot the first one recorded —
is refused with the body `Unauthorized`, which differs from the recorded
lookup error message. -/
theorem second_request_loses_error_message :
    AuthMiddleware emptyMetadata [[wCert]] (fun s => s) none [] =
      some { auth := { granted := false, entityID := "", organization := none,
                       organizationID := none },
             outcome := .denied 403
               "failed to find client pin (47DEQpj8HBSa+/TImW+5JCeuQeRkm5NMpJWZG3hSuFU=) in metadata" } ∧
    AuthMiddleware emptyMetadata [[wCert]] (fun s => s)
        (some { granted := false, entityID := "", organization := none,
                organizationID := none }) [] =
      some { auth := { granted := false, entityID := "", organization := none,
                       organizationID := none },
             outcome := .denied 403 "Unauthorized" } ∧
    ("Unauthorized" : String) ≠
      "failed to find client pin (47DEQpj8HBSa+/TImW+5JCeuQeRkm5NMpJWZG3hSuFU=) in metadata" := by
  refine ⟨by decide, by decide, by decide⟩

/-- Witness for C4 (amended) at a concrete connection. -/
theorem denied_connection_responses_witness :
    AuthMiddleware emptyMetadata [[wCert]] (fun s => s) none [("Host", ["backend"])] =
      some { auth := { granted := false, entityID := "", organization := none,
                       organizationID := none },
             outcome := .denied 403
               "failed to find client pin (47DEQpj8HBSa+/TImW+5JCeuQeRkm5NMpJWZG3hSuFU=) in metadata" } ∧
    AuthMiddleware emptyMetadata [[wCert]] (fun s => s)
        (some { granted := false, entityID := "", organization := none,
                organizationID := none }) [("Host", ["backend"])] =
      some { auth := { granted := false, entityID := "", organization := none,
                       organizationID := none },
             outcome := .denied 403 "Unauthorized" } := by
  obtain ⟨h1, h2⟩ := denied_connection_responses emptyMetadata [[wCert]] (fun s => s)
    [("Host", ["backend"])] wCert [] [] rfl (by decide)
  refine ⟨h1.trans (by decide), ?_⟩
  exact h2 { granted := false, entityID := "", organization := none,
             organizationID := none } rfl

/-- C5 (amended): on every authenticated request the middleware sets the
identity headers `X-FedTLSAuth-Entity-ID` (always, to the entity id
verbatim), `X-FedTLSAuth-Organization` and `X-FedTLSAuth-Organization-ID`
(set when present, deleted when absent) — and, in addition,
`X-FedTLSAuth-Normalized-Entity-ID`, set to the purell-normalised entity
id: the normalisation and the extra header are still present in this code.
No header with any other name is touched. -/
theorem authenticated_request_headers (md : Metadata)
    (chains : List (List Certificate)) (normalize : String → String)
    (a : AuthStatus) (reqHeaders : Header) (hgr : a.granted = true) :
    AuthMiddleware md chains normalize (some a) reqHeaders =
      some { auth := a,
             outcome := .forwarded (stampHeaders normalize a reqHeaders)
               a.entityID a.organization a.organizationID } ∧
    headerGet (stampHeaders normalize a reqHeaders) entityIDHeader = [a.entityID] ∧
    headerGet (stampHeaders normalize a reqHeaders) normalizedEntityIDHeader =
      [normalize a.entityID] ∧
    (∀ k : String, k ≠ entityIDHeader → k ≠ normalizedEntityIDHeader →
      k ≠ organizationHeader → k ≠ organizationIDHeader →
      headerGet (stampHeaders normalize a reqHeaders) k = headerGet reqHeaders k) := by
  refine ⟨by simp [AuthMiddleware, hgr], stampHeaders_entityID normalize a reqHeaders,
    stampHeaders_normalized normalize a reqHeaders, ?_⟩
  intro k h1 h2 h3 h4
  exact stampHeaders_other normalize a reqHeaders k h1 h2 h3 h4

/-- Counterexample to C5 as stated: the forwarded request of a concrete
authenticated call carries an `X-FedTLSAuth-Normalized-Entity-ID` header —
the middleware does normalise the entity id and adds the extra header. -/
theorem normalized_entity_id_header_added :
    headerGet forwardedHeadersW normalizedEntityIDHeader = ["https://example.com"] ∧
    headerGet forwardedHeadersW normalizedEntityIDHeader ≠ [] := by
  refine ⟨by decide, by decide⟩

/-- Witness for C5 (amended): concrete authenticated request; the
normalised header carries the normalisation function's output and an
unrelated header is untouched. -/
theorem authenticated_request_headers_witness :
    headerGet (stampHeaders (fun s => s ++ "!") aW []) normalizedEntityIDHeader =
      ["https://example.com!"] ∧
    headerGet (stampHeaders (fun s => s ++ "!") aW []) "Accept" = [] := by
  obtain ⟨h1, h2, h3, h4⟩ := authenticated_request_headers wMetadata [[wCert]]
    (fun s => s ++ "!") aW [] rfl
  exact ⟨h3.trans (by decide),
    (h4 "Accept" (by decide) (by decide) (by decide) (by decide)).trans rfl⟩

/-- C10: on every authenticated request the identity headers forwarded
upstream are a function of the matched entity only — whatever
`X-FedTLSAuth-…` headers the client supplied, the entity-id header is
unconditionally overwritten with the entity id, and each organization
header is overwritten when the metadata value is present and deleted from
the request when it is absent. -/
theorem identity_headers_from_entity_only (md : Metadata)
    (chains : List (List Certificate)) (normalize : String → String)
    (a : AuthStatus) (reqHeaders : Header) (hgr : a.granted = true) :
    AuthMiddleware md chains normalize (some a) reqHeaders =
      some { auth := a,
             outcome := .forwarded (stampHeaders normalize a reqHeaders)
               a.entityID a.organization a.organizationID } ∧
    headerGet (stampHeaders normalize a reqHeaders) entityIDHeader = [a.entityID] ∧
    headerGet (stampHeaders normalize a reqHeaders) organizationHeader =
      (match a.organization with | some o => [o] | none => []) ∧
    headerGet (stampHeaders normalize a reqHeaders) organizationIDHeader =
      (match a.organizationID with | some o => [o] | none => []) := by
  exact ⟨by simp [AuthMiddleware, hgr], stampHeaders_entityID normalize a reqHeaders,
    stampHeaders_organization normalize a reqHeaders,
    stampHeaders_organizationID normalize a reqHeaders⟩

/-- Witness for C10: a client-supplied spoof of the identity headers is
overwritten or deleted according to the matched entity. -/
theorem identity_headers_from_entity_only_witness :
    headerGet (stampHeaders (fun s => s) aW
      [(entityIDHeader, ["https://evil.example"]), (organizationIDHeader, ["spoofed"])])
      entityIDHeader = ["https://example.com"] ∧
    headerGet (stampHeaders (fun s => s) aW
      [(entityIDHeader, ["https://evil.example"]), (organizationIDHeader, ["spoofed"])])
      organizationHeader = ["Example Org"] ∧
    headerGet (stampHeaders (fun s => s) aW
      [(entityIDHeader, ["https://evil.example"]), (organizationIDHeader, ["spoofed"])])
      organizationIDHeader = [] := by
  obtain ⟨h1, h2, h3, h4⟩ := identity_headers_from_entity_only wMetadata [[wCert]]
    (fun s => s) aW
    [(entityIDHeader, ["https://evil.example"]), (organizationIDHeader, ["spoofed"])] rfl
  exact ⟨h2.trans (by decide), h3.trans (by decide), h4.trans (by decide)⟩

/-! ## Claims C7 and C8 -/

/-- C7: the effective refresh TTL equals `metadata.cache_ttl` seconds when
that value is non-zero and `default_cache_ttl` otherwise, and the refresh
delay computed from a last-fetch time and a TTL equals
`max 0 ((last_fetch + ttl) − now)` with a future last-fetch time first
clamped down to `now`. -/
theorem effective_ttl_and_refresh_delay (now lastFetch ttl m d : Int) :
    cacheTTL m d = (if m = 0 then d else m) ∧
    durationToRefresh now lastFetch ttl = max 0 (min lastFetch now + ttl - now) := by
  constructor
  · unfold cacheTTL
    by_cases h : m = 0 <;> simp [h]
  · unfold durationToRefresh
    rcases le_or_lt lastFetch now with h | h
    · rw [min_eq_left h]
      by_cases h2 : lastFetch + ttl < now <;> simp [not_lt.mp, h2] <;> omega
    · rw [min_eq_right (le_of_lt h)]
      by_cases h2 : now + ttl < now <;> simp [show now < lastFetch from h, h2] <;> omega

/-- C8: pin JSON decoding round-trips over canonical `{alg, digest}`
objects, decodes a legacy `{name, value}` object to the same pin as the
corresponding canonical object, and fails exactly when neither `alg` nor
`name` is present or neither `digest` nor `value` is present. -/
theorem pin_decode_roundtrip_legacy_failure :
    (∀ p : Pin, pinUnmarshalJSON (pinMarshalJSON p) = .ok p) ∧
    (∀ n v : String,
      pinUnmarshalJSON [("name", n), ("value", v)] = .ok { alg := n, digest := v } ∧
      pinUnmarshalJSON [("alg", n), ("digest", v)] = .ok { alg := n, digest := v }) ∧
    (∀ m : List (String × String),
      (∃ e, pinUnmarshalJSON m = .error e) ↔
        ((mapLookup m "alg" = none ∧ mapLookup m "name" = none) ∨
         (mapLookup m "digest" = none ∧ mapLookup m "value" = none))) := by
  refine ⟨?_, ?_, ?_⟩
  · intro p
    simp [pinUnmarshalJSON, pinMarshalJSON, pinAlg, pinDigest, mapLookup]
  · intro n v
    constructor <;> simp [pinUnmarshalJSON, pinAlg, pinDigest, mapLookup]
  · intro m
    unfold pinUnmarshalJSON pinAlg pinDigest
    rcases halg : mapLookup m "alg" with _ | alg <;>
      rcases hname : mapLookup m "name" with _ | name <;>
        rcases hdig : mapLookup m "digest" with _ | digest <;>
          rcases hval : mapLookup m "value" with _ | value <;>
            simp [halg, hname, hdig, hval]

end Bowness

